import Mathlib

/-
Verification of the OAuth token-generator app (src/app.py) against its
natural-language specification.

The app is a linear three-step wizard: upload a client-secret JSON file,
generate an authorization URL (google_auth_oauthlib Flow with fixed SCOPES
and redirect_uri http://localhost:8080), paste the redirect URL back,
exchange the extracted code for tokens, and serialize six fields to
token.json.  The definitions below are a shallow embedding of that code:
pure string processing (urlparse, parse_qs, urlencode, percent decoding)
is modelled over List Char; the network call is modelled by passing the
provider's result as an explicit value; Streamlit session state becomes an
explicit AppState record.
-/

namespace TokenGen

/-- Hex value of a character, as in Python's urllib unquote: digits,
lowercase and uppercase hex letters. -/
def hexVal (c : Char) : Option Nat :=
  if '0' ≤ c ∧ c ≤ '9' then some (c.toNat - '0'.toNat)
  else if 'a' ≤ c ∧ c ≤ 'f' then some (c.toNat - 'a'.toNat + 10)
  else if 'A' ≤ c ∧ c ≤ 'F' then some (c.toNat - 'A'.toNat + 10)
  else none

/-- Uppercase hex digit for a value below 16, as produced by urllib's
quoting. -/
def hexDigit (n : Nat) : Char :=
  if n < 10 then Char.ofNat ('0'.toNat + n) else Char.ofNat ('A'.toNat + n - 10)

/-- Model of urllib.parse.unquote_plus on a character list: '+' becomes a
space, a valid %XX escape becomes the escaped character, an invalid escape
is kept verbatim.  (The model treats characters below 256 as single bytes;
all inputs the app handles are ASCII.) -/
def percentDecode : List Char → List Char
  | [] => []
  | '%' :: h1 :: h2 :: rest2 =>
    match hexVal h1, hexVal h2 with
    | some a, some b => Char.ofNat (16 * a + b) :: percentDecode rest2
    | _, _ => '%' :: percentDecode (h1 :: h2 :: rest2)
  | c :: rest =>
    if c = '+' then ' ' :: percentDecode rest
    else c :: percentDecode rest

/-- Characters urllib.parse.quote_plus leaves unescaped (letters, digits,
and the marks in its default safe set). -/
def isUnreserved (c : Char) : Bool :=
  c.isAlphanum || c = '-' || c = '_' || c = '.' || c = '~'

/-- Model of urllib.parse.quote_plus on one character: unreserved
characters pass through, a space becomes '+', anything else becomes a %XX
escape of its byte value. -/
def quoteChar (c : Char) : List Char :=
  if isUnreserved c then [c]
  else if c = ' ' then ['+']
  else ['%', hexDigit (c.toNat / 16), hexDigit (c.toNat % 16)]

/-- quote_plus over a whole character list. -/
def quoteChars : List Char → List Char
  | [] => []
  | c :: cs => quoteChar c ++ quoteChars cs

/-- Python str.split(sep) semantics for a one-character separator: always
returns at least one (possibly empty) chunk. -/
def splitOnChar (sep : Char) : List Char → List (List Char)
  | [] => [[]]
  | c :: cs =>
    if c = sep then [] :: splitOnChar sep cs
    else
      match splitOnChar sep cs with
      | [] => [[c]]
      | y :: ys => (c :: y) :: ys

/-- Python str.split(sep, 1) semantics: split at the first occurrence of
the separator, or none when the separator does not occur. -/
def splitFirst (sep : Char) : List Char → Option (List Char × List Char)
  | [] => none
  | c :: cs =>
    if c = sep then some ([], cs)
    else
      match splitFirst sep cs with
      | none => none
      | some (a, b) => some (c :: a, b)

/-- One name=value field of a query string, as urllib.parse.parse_qsl
treats it with default arguments: fields without '=' and fields with an
empty value are dropped, and name and value are unquote_plus-decoded. -/
def decodeField (nv : List Char) : Option (List Char × List Char) :=
  match splitFirst '=' nv with
  | none => none
  | some (n, v) => if v = [] then none else some (percentDecode n, percentDecode v)

/-- Model of urllib.parse.parse_qsl with default arguments: split the
query on '&' and decode each field, keeping order. -/
def parse_qslChars (qs : List Char) : List (List Char × List Char) :=
  (splitOnChar '&' qs).filterMap decodeField

/-- The ordered key/value pairs of a query string.  parse_qs in the source
builds a dict of lists from exactly these pairs; key membership and the
list of values for a key are recovered by the lookup functions below. -/
def parse_qs (qs : String) : List (String × String) :=
  (parse_qslChars qs.data).map fun p => (String.mk p.1, String.mk p.2)

/-- Model of urllib.parse.urlparse(url).query: the part of the URL after
the first '?' (with any fragment after the first '#' removed), or empty
when there is no '?'. -/
def urlQueryChars (url : List Char) : List Char :=
  let noFrag :=
    match splitFirst '#' url with
    | none => url
    | some (a, _) => a
  match splitFirst '?' noFrag with
  | none => []
  | some (_, q) => q

/-- String-level wrapper for the query component of a URL. -/
def urlparse_query (url : String) : String :=
  String.mk (urlQueryChars url.data)

/-- query_params[key] of the parse_qs dict: all values whose decoded name
equals the key, in query order.  The key is absent from the dict exactly
when this list is empty. -/
def parse_qs_lookup (qs : String) (key : String) : List String :=
  (parse_qs qs).filterMap fun p => if p.1 = key then some p.2 else none

/-- Lines 133-140 of src/app.py: parse the pasted redirect URL, and take
query_params['code'][0] when present; none models the
"No authorization code found in URL" error branch. -/
def extract_code (redirect_url : String) : Option String :=
  match parse_qs_lookup (urlparse_query redirect_url) "code" with
  | [] => none
  | c :: _ => some c

/-- Model of urllib.parse.urlencode (quote_via=quote_plus, the default
used by oauthlib when building the authorization URL): '&'-joined
name=value fields, both sides quote_plus-encoded. -/
def encodePair (p : List Char × List Char) : List Char :=
  quoteChars p.1 ++ '=' :: quoteChars p.2

/-- urlencode over an ordered parameter list, at the character level. -/
def urlencodeChars : List (List Char × List Char) → List Char
  | [] => []
  | [p] => encodePair p
  | p :: ps => encodePair p ++ '&' :: urlencodeChars ps

/-- urlencode over string pairs. -/
def urlencode (ps : List (String × String)) : String :=
  String.mk (urlencodeChars (ps.map fun p => (p.1.data, p.2.data)))

/-- Contents of the application object inside the uploaded client-secret
JSON (the value under the installed or web key). -/
structure AppConfig where
  client_id : String
  client_secret : String
  auth_uri : String
  token_uri : String
  redirect_uris : List String
deriving DecidableEq

/-- The parsed uploaded credentials JSON, keyed by the two possible
application-type keys; an absent key is none. -/
structure CredentialsData where
  installed : Option AppConfig
  web : Option AppConfig
deriving DecidableEq

/-- Line 59 of src/app.py: the upload is accepted exactly when the parsed
JSON has an installed key; otherwise the app reports
"This is not a desktop application credentials file". -/
def upload_accepts (cd : CredentialsData) : Bool :=
  cd.installed.isSome

/-- Spec-side definition, following the spec's words for comparison with
upload_accepts: exactly one of the two application-type keys
(installed, web) is present. -/
def spec_exactly_one_app_type (cd : CredentialsData) : Bool :=
  (cd.installed.isSome && !cd.web.isSome) || (!cd.installed.isSome && cd.web.isSome)

/-- The fixed scope list of src/app.py lines 21-25. -/
def SCOPES : List String :=
  ["https://www.googleapis.com/auth/gmail.modify",
   "https://www.googleapis.com/auth/gmail.readonly",
   "https://www.googleapis.com/auth/calendar"]

/-- The OAuth flow object: client configuration plus the scopes and the
redirect URI chosen at construction time. -/
structure Flow where
  client_id : String
  client_secret : String
  auth_uri : String
  token_uri : String
  scopes : List String
  redirect_uri : String
deriving DecidableEq

/-- Model of Flow.from_client_secrets_file for a desktop ("installed")
client configuration: the flow carries the config's endpoints and
credentials together with the caller-chosen scopes and redirect URI.  The
config's own redirect_uris list is not consulted. -/
def from_client_secrets (cfg : AppConfig) (scopes : List String)
    (redirect_uri : String) : Flow :=
  { client_id := cfg.client_id
    client_secret := cfg.client_secret
    auth_uri := cfg.auth_uri
    token_uri := cfg.token_uri
    scopes := scopes
    redirect_uri := redirect_uri }

/-- Lines 87-91 of src/app.py: the flow is always built with the fixed
SCOPES and the constant redirect URI http://localhost:8080. -/
def app_flow (cfg : AppConfig) : Flow :=
  from_client_secrets cfg SCOPES "http://localhost:8080"

/-- The query parameters of the authorization URL, in the order oauthlib's
prepare_grant_uri emits them, with the two extra parameters the app passes
at line 94-97 (access_type=offline, include_granted_scopes=true).  The
scope value is the space-joined scope list.  The random state parameter is
not modelled. -/
def authParams (flow : Flow) : List (String × String) :=
  [("response_type", "code"),
   ("client_id", flow.client_id),
   ("redirect_uri", flow.redirect_uri),
   ("scope", String.intercalate " " flow.scopes),
   ("access_type", "offline"),
   ("include_granted_scopes", "true")]

/-- Model of flow.authorization_url (line 94): the auth endpoint followed
by the urlencoded query parameters. -/
def authorization_url (flow : Flow) : String :=
  flow.auth_uri ++ "?" ++ urlencode (authParams flow)

/-- The authorization URL the app can produce for an uploaded descriptor:
none when the upload is rejected at line 59 (Step 2 is then never
rendered, so no URL is generated). -/
def app_auth_url (cd : CredentialsData) : Option String :=
  match cd.installed with
  | none => none
  | some cfg => some (authorization_url (app_flow cfg))

/-- A successful token-endpoint JSON response.  granted_scopes models the
optional scope field of the response. -/
structure TokenResponse where
  access_token : String
  refresh_token : Option String
  expires_in : Nat
  granted_scopes : Option (List String)
deriving DecidableEq

/-- The outcome of the single network call in fetch_token, passed in
explicitly: a successful 2xx JSON response, an HTTP error response
(e.g. 400 invalid_grant), or a transport-level failure. -/
inductive ProviderResult where
  | success (resp : TokenResponse)
  | httpError (status : Nat) (body_error : String)
  | networkFailure
deriving DecidableEq

/-- The credentials object the flow holds after a successful fetch_token.
Modelled from the library's documented mapping: token comes from
access_token, refresh_token from refresh_token, the endpoint and client
identity from the flow, and scopes from the response's scope field when
present (otherwise the requested scopes). -/
structure Credentials where
  token : String
  refresh_token : Option String
  token_uri : String
  client_id : String
  client_secret : String
  scopes : List String
deriving DecidableEq

/-- flow.credentials after a successful fetch_token (line 145-146). -/
def fetch_token_success (flow : Flow) (resp : TokenResponse) : Credentials :=
  { token := resp.access_token
    refresh_token := resp.refresh_token
    token_uri := flow.token_uri
    client_id := flow.client_id
    client_secret := flow.client_secret
    scopes := resp.granted_scopes.getD flow.scopes }

/-- The error kinds of the exchange step, named as in the spec. -/
inductive ExchangeError where
  | authorizationDenied
  | networkFailure
deriving DecidableEq

/-- Model of flow.fetch_token: the token request is sent once; a non-2xx
provider response raises (AuthorizationDenied), a transport failure raises
(NetworkFailure), and only a successful response yields credentials. -/
def exchangeCodeForToken (flow : Flow) (_code : String)
    (r : ProviderResult) : Except ExchangeError Credentials :=
  match r with
  | .success resp => .ok (fetch_token_success flow resp)
  | .httpError _ _ => .error .authorizationDenied
  | .networkFailure => .error .networkFailure

/-- The body of the token request fetch_token posts to the token endpoint
(modelled from the library: authorization-code grant with the flow's
client credentials and redirect URI). -/
def token_request_params (flow : Flow) (code : String) : List (String × String) :=
  [("grant_type", "authorization_code"),
   ("code", code),
   ("client_id", flow.client_id),
   ("client_secret", flow.client_secret),
   ("redirect_uri", flow.redirect_uri)]

/-- The token_data dict of src/app.py lines 149-156. -/
structure TokenData where
  token : String
  refresh_token : Option String
  token_uri : String
  client_id : String
  client_secret : String
  scopes : List String
deriving DecidableEq

/-- Lines 149-156: token_data is built from the credentials object. -/
def mk_token_data (creds : Credentials) : TokenData :=
  { token := creds.token
    refresh_token := creds.refresh_token
    token_uri := creds.token_uri
    client_id := creds.client_id
    client_secret := creds.client_secret
    scopes := creds.scopes }

/-- A small JSON value type for the serialized token.json. -/
inductive Json where
  | null : Json
  | str : String → Json
  | arr : List Json → Json
  | obj : List (String × Json) → Json

/-- json.dumps(token_data) at line 171: an object with exactly the six
keys of the token_data dict, in insertion order. -/
def token_json (td : TokenData) : Json :=
  Json.obj
    [("token", Json.str td.token),
     ("refresh_token",
       match td.refresh_token with
       | some r => Json.str r
       | none => Json.null),
     ("token_uri", Json.str td.token_uri),
     ("client_id", Json.str td.client_id),
     ("client_secret", Json.str td.client_secret),
     ("scopes", Json.arr (td.scopes.map Json.str))]

/-- The key list of a JSON object. -/
def Json.objKeys : Json → List String
  | .obj fs => fs.map fun p => p.1
  | _ => []

/-- How a single press of the Generate Token button ends. -/
inductive AppError where
  | malformedInput
  | exchange (e : ExchangeError)
deriving DecidableEq

/-- Outcome of the token-generation step: either an error or the complete
token_data. -/
inductive StepOutcome where
  | failure (e : AppError)
  | token (td : TokenData)
deriving DecidableEq

/-- Result of one press of the Generate Token button: the outcome, and
the code the exchange was attempted with (none when the exchange was
never reached). -/
structure TokenStepResult where
  outcome : StepOutcome
  attempted_code : Option String
deriving DecidableEq

/-- Lines 131-209 of src/app.py: extract the code from the pasted
redirect URL; on success exchange it exactly once; any exception lands in
the handler at lines 207-209, which only shows an error.  token_data is
built only after fetch_token returns. -/
def run_token_step (flow : Flow) (redirect_url : String)
    (r : ProviderResult) : TokenStepResult :=
  match extract_code redirect_url with
  | none => ⟨.failure .malformedInput, none⟩
  | some code =>
    match exchangeCodeForToken flow code r with
    | .error e => ⟨.failure (.exchange e), some code⟩
    | .ok creds => ⟨.token (mk_token_data creds), some code⟩

/-- The pieces of Streamlit session state the exchange depends on:
st.session_state.auth_url and st.session_state.flow. -/
structure AppState where
  auth_url : Option String
  flow : Option Flow
deriving DecidableEq

/-- Lines 84-100: pressing Generate Authorization URL stores the URL and
the flow object in session state. -/
def gen_auth_event (s : AppState) (f : Flow) : AppState :=
  { s with auth_url := some (authorization_url f), flow := some f }

/-- Pressing Generate Token: runs one token step with the flow retained
in session state.  The handler never writes session state, so the state
component is returned unchanged in every case, including failure. -/
def gen_token_event (s : AppState) (redirect_url : String)
    (r : ProviderResult) : AppState × Option TokenStepResult :=
  match s.flow with
  | none => (s, none)
  | some f => (s, some (run_token_step f redirect_url r))

/-- The upload as the handler at lines 50-75 sees it: either the file is
not valid JSON (json.loads raises) or it parses to a CredentialsData. -/
inductive Uploaded where
  | invalidJson
  | parsed (cd : CredentialsData)

/-- Temporary files an upload run creates: the NamedTemporaryFile at line
53 is created (delete=False) before the JSON is validated, on every path. -/
def upload_temp_files (_u : Uploaded) (tmpName : String) : List String :=
  [tmpName]

/-- st.session_state.credentials_path after the upload handler: set at
line 68 only when the installed check passed; the invalid-JSON and
non-installed paths leave it unset. -/
def upload_session_path (u : Uploaded) (tmpName : String) : Option String :=
  match u with
  | .invalidJson => none
  | .parsed cd => if upload_accepts cd then some tmpName else none

/-- Lines 244-249: the end-of-run cleanup unlinks exactly the file named
by st.session_state.credentials_path, when set. -/
def cleanup_deleted (path : Option String) : List String :=
  match path with
  | some p => [p]
  | none => []

/-- The temporary credential files still on disk after a run completes:
created during the run but not removed by the cleanup. -/
def leftover_temp_files (u : Uploaded) (tmpName : String) : List String :=
  (upload_temp_files u tmpName).filter
    fun f => !(cleanup_deleted (upload_session_path u tmpName)).contains f

/-- A concrete installed-application client configuration. -/
def exInstalledConfig : AppConfig :=
  { client_id := "desktop-client-1"
    client_secret := "sec-1"
    auth_uri := "https://accounts.google.com/o/oauth2/auth"
    token_uri := "https://oauth2.googleapis.com/token"
    redirect_uris := ["http://localhost"] }

/-- A concrete web-application client configuration. -/
def exWebConfig : AppConfig :=
  { client_id := "web-client-1"
    client_secret := "sec-2"
    auth_uri := "https://accounts.google.com/o/oauth2/auth"
    token_uri := "https://oauth2.googleapis.com/token"
    redirect_uris := ["https://example.com/callback"] }

/-- A concrete flow, as the app would build it from exInstalledConfig. -/
def exFlow : Flow :=
  app_flow exInstalledConfig

/-- A concrete successful provider response. -/
def exResp : TokenResponse :=
  { access_token := "T"
    refresh_token := some "R"
    expires_in := 3600
    granted_scopes := none }

/-- Decoding a hex digit produced by hexDigit recovers the value. -/
lemma hexVal_hexDigit : ∀ n : Nat, n < 16 → hexVal (hexDigit n) = some n := by
  decide

/-- Hex digits are unreserved characters. -/
lemma isUnreserved_hexDigit : ∀ n : Nat, n < 16 → isUnreserved (hexDigit n) = true := by
  decide

/-- Decoding a list that starts with a character other than '%' handles
just that character. -/
lemma percentDecode_cons (c : Char) (rest : List Char) (hp : c ≠ '%') :
    percentDecode (c :: rest) = (if c = '+' then ' ' else c) :: percentDecode rest := by
  rw [percentDecode.eq_def]
  rcases rest with _ | ⟨h1, _ | ⟨h2, r2⟩⟩ <;> split <;> simp_all <;> split_ifs <;> simp_all

/-- Decoding an escape sequence. -/
lemma percentDecode_escape (h1 h2 : Char) (r : List Char) :
    percentDecode ('%' :: h1 :: h2 :: r) =
      match hexVal h1, hexVal h2 with
      | some a, some b => Char.ofNat (16 * a + b) :: percentDecode r
      | _, _ => '%' :: percentDecode (h1 :: h2 :: r) := rfl

/-- Decoding inverts quoting for a single byte-sized character. -/
lemma percentDecode_quoteChar (c : Char) (h : c.toNat < 256) (rest : List Char) :
    percentDecode (quoteChar c ++ rest) = c :: percentDecode rest := by
  unfold quoteChar
  split_ifs with hu hs
  · have hp : c ≠ '%' := by rintro rfl; exact absurd hu (by decide)
    have hplus : c ≠ '+' := by rintro rfl; exact absurd hu (by decide)
    rw [List.cons_append, List.nil_append, percentDecode_cons c rest hp, if_neg hplus]
  · subst hs
    rw [List.cons_append, List.nil_append, percentDecode_cons '+' rest (by decide),
      if_pos rfl]
  · rw [show ('%' :: hexDigit (c.toNat / 16) :: hexDigit (c.toNat % 16) :: []) ++ rest =
        '%' :: hexDigit (c.toNat / 16) :: hexDigit (c.toNat % 16) :: rest from rfl]
    rw [percentDecode_escape]
    rw [hexVal_hexDigit _ (by omega), hexVal_hexDigit _ (by omega)]
    show Char.ofNat (16 * (c.toNat / 16) + c.toNat % 16) :: percentDecode rest =
      c :: percentDecode rest
    rw [Nat.div_add_mod c.toNat 16, Char.ofNat_toNat]

/-- Decoding inverts quoting for a whole byte-sized string, in front of
any remainder. -/
lemma percentDecode_quoteChars (s rest : List Char) (h : ∀ c ∈ s, c.toNat < 256) :
    percentDecode (quoteChars s ++ rest) = s ++ percentDecode rest := by
  induction s with
  | nil => simp [quoteChars]
  | cons c cs ih =>
    rw [show quoteChars (c :: cs) = quoteChar c ++ quoteChars cs from rfl,
      List.append_assoc, percentDecode_quoteChar c (h c (List.mem_cons_self _ _)),
      ih fun a ha => h a (List.mem_cons_of_mem _ ha)]
    rfl

/-- Decoding inverts quoting for a whole byte-sized string. -/
lemma percentDecode_quoteChars_eq (s : List Char) (h : ∀ c ∈ s, c.toNat < 256) :
    percentDecode (quoteChars s) = s := by
  have := percentDecode_quoteChars s [] h
  simpa [show percentDecode ([] : List Char) = [] from rfl] using this

/-- Quoting one character never produces an empty list. -/
lemma quoteChar_ne_nil (c : Char) : quoteChar c ≠ [] := by
  unfold quoteChar
  split_ifs <;> simp

/-- Every character of a quoted byte-sized character is unreserved, '+'
or '%'. -/
lemma mem_quoteChar (x c : Char) (hc : c.toNat < 256) (hx : x ∈ quoteChar c) :
    isUnreserved x = true ∨ x = '+' ∨ x = '%' := by
  unfold quoteChar at hx
  split_ifs at hx with h1 h2
  · simp only [List.mem_singleton] at hx
    subst hx
    exact Or.inl h1
  · simp only [List.mem_singleton] at hx
    subst hx
    exact Or.inr (Or.inl rfl)
  · simp only [List.mem_cons, List.not_mem_nil, or_false] at hx
    rcases hx with rfl | rfl | rfl
    · exact Or.inr (Or.inr rfl)
    · exact Or.inl (isUnreserved_hexDigit _ (by omega))
    · exact Or.inl (isUnreserved_hexDigit _ (by omega))

/-- A reserved character that is neither '+' nor '%' never occurs in a
quoted byte-sized string. -/
lemma not_mem_quoteChars (x : Char) (hu : isUnreserved x = false) (h1 : x ≠ '+')
    (h2 : x ≠ '%') (s : List Char) (hs : ∀ c ∈ s, c.toNat < 256) :
    x ∉ quoteChars s := by
  induction s with
  | nil => simp [quoteChars]
  | cons c cs ih =>
    rw [show quoteChars (c :: cs) = quoteChar c ++ quoteChars cs from rfl]
    simp only [List.mem_append]
    rintro (hm | hm)
    · rcases mem_quoteChar x c (hs c (List.mem_cons_self _ _)) hm with h | h | h
      · rw [hu] at h
        cases h
      · exact h1 h
      · exact h2 h
    · exact ih (fun a ha => hs a (List.mem_cons_of_mem _ ha)) hm

/-- Splitting never yields an empty chunk list. -/
lemma splitOnChar_ne_nil (sep : Char) (l : List Char) : splitOnChar sep l ≠ [] := by
  induction l with
  | nil => simp [splitOnChar]
  | cons c cs ih =>
    simp only [splitOnChar]
    split_ifs
    · simp
    · rcases h : splitOnChar sep cs with _ | ⟨y, ys⟩
      · exact absurd h ih
      · simp [h]

/-- A separator-free prefix is absorbed into the first chunk. -/
lemma splitOnChar_append (sep : Char) (f l : List Char) (hf : sep ∉ f)
    (y : List Char) (ys : List (List Char)) (h : splitOnChar sep l = y :: ys) :
    splitOnChar sep (f ++ l) = (f ++ y) :: ys := by
  induction f with
  | nil => simpa using h
  | cons c f ih =>
    have hc : ¬ c = sep := by
      rintro rfl
      exact hf (List.mem_cons_self _ _)
    have hf' : sep ∉ f := fun m => hf (List.mem_cons_of_mem _ m)
    rw [List.cons_append]
    simp only [splitOnChar, if_neg hc]
    rw [ih hf']
    rfl

/-- Splitting a separator-free list yields a single chunk. -/
lemma splitOnChar_single (sep : Char) (l : List Char) (h : sep ∉ l) :
    splitOnChar sep l = [l] := by
  induction l with
  | nil => rfl
  | cons c cs ih =>
    have hc : ¬ c = sep := by
      rintro rfl
      exact h (List.mem_cons_self _ _)
    have h' : sep ∉ cs := fun m => h (List.mem_cons_of_mem _ m)
    simp only [splitOnChar, if_neg hc, ih h']

/-- splitFirst finds nothing in a separator-free list. -/
lemma splitFirst_eq_none (sep : Char) (l : List Char) (h : sep ∉ l) :
    splitFirst sep l = none := by
  induction l with
  | nil => rfl
  | cons c cs ih =>
    have hc : ¬ c = sep := by
      rintro rfl
      exact h (List.mem_cons_self _ _)
    have h' : sep ∉ cs := fun m => h (List.mem_cons_of_mem _ m)
    simp only [splitFirst, if_neg hc, ih h']

/-- splitFirst splits at the first separator occurrence. -/
lemma splitFirst_append (sep : Char) (n v : List Char) (hn : sep ∉ n) :
    splitFirst sep (n ++ sep :: v) = some (n, v) := by
  induction n with
  | nil => simp [splitFirst]
  | cons c m ih =>
    have hc : ¬ c = sep := by
      rintro rfl
      exact hn (List.mem_cons_self _ _)
    have hm : sep ∉ m := fun q => hn (List.mem_cons_of_mem _ q)
    rw [List.cons_append]
    simp only [splitFirst, if_neg hc, ih hm]

/-- Decoding a urlencoded field recovers the original byte-sized pair,
provided its value is nonempty. -/
lemma decodeField_encodePair (n v : List Char) (hn : ∀ c ∈ n, c.toNat < 256)
    (hv : ∀ c ∈ v, c.toNat < 256) (hne : v ≠ []) :
    decodeField (encodePair (n, v)) = some (n, v) := by
  have heq : '=' ∉ quoteChars n :=
    not_mem_quoteChars '=' (by decide) (by decide) (by decide) n hn
  have hvne : quoteChars v ≠ [] := by
    cases v with
    | nil => exact absurd rfl hne
    | cons a as =>
      rw [show quoteChars (a :: as) = quoteChar a ++ quoteChars as from rfl]
      intro e
      exact quoteChar_ne_nil a (List.append_eq_nil.mp e).1
  unfold decodeField encodePair
  rw [splitFirst_append _ _ _ heq]
  simp only [if_neg hvne]
  rw [percentDecode_quoteChars_eq n hn, percentDecode_quoteChars_eq v hv]

/-- '&' never occurs inside a urlencoded field of byte-sized strings. -/
lemma amp_not_mem_encodePair (n v : List Char) (hn : ∀ c ∈ n, c.toNat < 256)
    (hv : ∀ c ∈ v, c.toNat < 256) : '&' ∉ encodePair (n, v) := by
  unfold encodePair
  simp only [List.mem_append, List.mem_cons]
  rintro (h | h | h)
  · exact not_mem_quoteChars '&' (by decide) (by decide) (by decide) n hn h
  · exact absurd h (by decide)
  · exact not_mem_quoteChars '&' (by decide) (by decide) (by decide) v hv h

/-- Parsing inverts urlencoding for byte-sized pairs with nonempty
values. -/
lemma parse_qslChars_urlencodeChars (ps : List (List Char × List Char))
    (h : ∀ p ∈ ps, (∀ c ∈ p.1, c.toNat < 256) ∧ (∀ c ∈ p.2, c.toNat < 256) ∧ p.2 ≠ []) :
    parse_qslChars (urlencodeChars ps) = ps := by
  induction ps with
  | nil => rfl
  | cons p ps ih =>
    obtain ⟨n, v⟩ := p
    obtain ⟨hn, hv, hne⟩ := h (n, v) (List.mem_cons_self _ _)
    cases ps with
    | nil =>
      unfold parse_qslChars
      rw [show urlencodeChars [(n, v)] = encodePair (n, v) from rfl,
        splitOnChar_single '&' _ (amp_not_mem_encodePair n v hn hv)]
      simp [decodeField_encodePair n v hn hv hne]
    | cons q qs =>
      have hq : ∀ p ∈ q :: qs,
          (∀ c ∈ p.1, c.toNat < 256) ∧ (∀ c ∈ p.2, c.toNat < 256) ∧ p.2 ≠ [] :=
        fun p hp => h p (List.mem_cons_of_mem _ hp)
      obtain ⟨y, ys, hsplit⟩ :
          ∃ y ys, splitOnChar '&' (urlencodeChars (q :: qs)) = y :: ys := by
        rcases e : splitOnChar '&' (urlencodeChars (q :: qs)) with _ | ⟨y, ys⟩
        · exact absurd e (splitOnChar_ne_nil _ _)
        · exact ⟨y, ys, rfl⟩
      have hstep : splitOnChar '&' (urlencodeChars ((n, v) :: q :: qs)) =
          encodePair (n, v) :: splitOnChar '&' (urlencodeChars (q :: qs)) := by
        rw [show urlencodeChars ((n, v) :: q :: qs) =
            encodePair (n, v) ++ '&' :: urlencodeChars (q :: qs) from rfl]
        have h2 : splitOnChar '&' ('&' :: urlencodeChars (q :: qs)) =
            [] :: splitOnChar '&' (urlencodeChars (q :: qs)) := by
          simp [splitOnChar]
        rw [splitOnChar_append '&' _ _ (amp_not_mem_encodePair n v hn hv) _ _ h2]
        simp [hsplit]
      unfold parse_qslChars at ih ⊢
      rw [hstep, List.filterMap_cons, decodeField_encodePair n v hn hv hne, ih hq]

/-- Rebuilding a string from its character list is the identity. -/
lemma string_mk_data (s : String) : String.mk s.data = s := by
  cases s
  rfl

/-- A nonempty string has a nonempty character list. -/
lemma string_data_ne_nil (s : String) (h : s ≠ "") : s.data ≠ [] := by
  intro e
  apply h
  cases s with
  | mk d =>
    cases e
    rfl

/-- Parsing inverts urlencoding at the string level. -/
lemma parse_qs_urlencode (ps : List (String × String))
    (h : ∀ p ∈ ps, (∀ c ∈ p.1.data, c.toNat < 256) ∧
      (∀ c ∈ p.2.data, c.toNat < 256) ∧ p.2 ≠ "") :
    parse_qs (urlencode ps) = ps := by
  unfold parse_qs urlencode
  rw [show (String.mk (urlencodeChars (ps.map fun p => (p.1.data, p.2.data)))).data =
      urlencodeChars (ps.map fun p => (p.1.data, p.2.data)) from rfl]
  rw [parse_qslChars_urlencodeChars]
  · rw [List.map_map]
    have hid : ∀ p ∈ ps,
        ((fun p : List Char × List Char => (String.mk p.1, String.mk p.2)) ∘
          fun p : String × String => (p.1.data, p.2.data)) p = p := by
      intro p _
      obtain ⟨a, b⟩ := p
      simp [Function.comp, string_mk_data]
    rw [List.map_congr_left hid]
    simp
  · intro p hp
    simp only [List.mem_map] at hp
    obtain ⟨q, hq, rfl⟩ := hp
    obtain ⟨h1, h2, h3⟩ := h q hq
    exact ⟨h1, h2, string_data_ne_nil _ h3⟩

/-- Head of the per-key value list equals the value of the first pair
found for that key. -/
lemma head_filterMap_key (l : List (String × String)) (k : String) :
    (l.filterMap fun q => if q.1 = k then some q.2 else none).head? =
      (l.find? fun q => q.1 == k).map fun q => q.2 := by
  induction l with
  | nil => rfl
  | cons a l ih =>
    by_cases hk : a.1 = k
    · simp [List.filterMap_cons, List.find?_cons, hk]
    · simp [List.filterMap_cons, List.find?_cons, hk, ih]

/-- extract_code takes the head of query_params over the code key. -/
lemma extract_code_eq_head (url : String) :
    extract_code url = (parse_qs_lookup (urlparse_query url) "code").head? := by
  rcases e : parse_qs_lookup (urlparse_query url) "code" with _ | ⟨c, cs⟩ <;>
    simp [extract_code, e]

/-- Claim C1 counterexample: a descriptor carrying both application-type
keys is accepted by the upload check, although exactly-one-of-two fails
for it; the exchanger therefore does not accept only descriptors with
exactly one application-type key. -/
theorem c1_counterexample :
    upload_accepts ⟨some exInstalledConfig, some exWebConfig⟩ = true ∧
      spec_exactly_one_app_type ⟨some exInstalledConfig, some exWebConfig⟩ = false :=
  ⟨rfl, rfl⟩

/-- Claim C1 (amended): the upload check accepts a descriptor exactly when
the installed key is present, regardless of the web key; for a descriptor
missing both keys the upload is rejected and no authorization URL is
produced. -/
theorem c1_installed_key_check (cd : CredentialsData) :
    (upload_accepts cd = true ↔ cd.installed.isSome = true) ∧
      (cd.installed = none ∧ cd.web = none →
        upload_accepts cd = false ∧ app_auth_url cd = none) := by
  constructor
  · exact Iff.rfl
  · rintro ⟨h1, _⟩
    unfold upload_accepts app_auth_url
    rw [h1]
    exact ⟨rfl, rfl⟩

/-- Claim C1 witness: the missing-both-keys descriptor is rejected and
yields no authorization URL. -/
theorem c1_installed_key_check_witness :
    upload_accepts ⟨none, none⟩ = false ∧ app_auth_url ⟨none, none⟩ = none :=
  (c1_installed_key_check ⟨none, none⟩).2 ⟨rfl, rfl⟩

/-- Claim C2: for every successful exchange, token.json is an object with
exactly the six fields token, refresh_token, token_uri, client_id,
client_secret, scopes (an array of strings), where token is the response
access_token and refresh_token is the response refresh_token. -/
theorem c2_token_json_shape (flow : Flow) (resp : TokenResponse) :
    token_json (mk_token_data (fetch_token_success flow resp)) =
      Json.obj
        [("token", Json.str resp.access_token),
         ("refresh_token",
           match resp.refresh_token with
           | some r => Json.str r
           | none => Json.null),
         ("token_uri", Json.str flow.token_uri),
         ("client_id", Json.str flow.client_id),
         ("client_secret", Json.str flow.client_secret),
         ("scopes", Json.arr ((resp.granted_scopes.getD flow.scopes).map Json.str))] ∧
      Json.objKeys (token_json (mk_token_data (fetch_token_success flow resp))) =
        ["token", "refresh_token", "token_uri", "client_id", "client_secret", "scopes"] :=
  ⟨rfl, rfl⟩

/-- Claim C3: the authorization URL targets the descriptor auth endpoint,
and its query parses back to exactly the documented parameters, with
scope the space-joined scope list, access_type=offline and
include_granted_scopes=true. -/
theorem c3_authorization_url_params (flow : Flow)
    (h1 : flow.client_id ≠ "") (h2 : ∀ c ∈ flow.client_id.data, c.toNat < 256)
    (h3 : flow.redirect_uri ≠ "") (h4 : ∀ c ∈ flow.redirect_uri.data, c.toNat < 256)
    (h5 : String.intercalate " " flow.scopes ≠ "")
    (h6 : ∀ c ∈ (String.intercalate " " flow.scopes).data, c.toNat < 256) :
    ∃ q : String, authorization_url flow = flow.auth_uri ++ "?" ++ q ∧
      parse_qs q =
        [("response_type", "code"),
         ("client_id", flow.client_id),
         ("redirect_uri", flow.redirect_uri),
         ("scope", String.intercalate " " flow.scopes),
         ("access_type", "offline"),
         ("include_granted_scopes", "true")] := by
  refine ⟨urlencode (authParams flow), rfl, ?_⟩
  show parse_qs (urlencode (authParams flow)) = authParams flow
  apply parse_qs_urlencode
  intro p hp
  simp only [authParams, List.mem_cons, List.not_mem_nil, or_false] at hp
  rcases hp with rfl | rfl | rfl | rfl | rfl | rfl
  · dsimp only
    exact ⟨by decide, by decide, by decide⟩
  · dsimp only
    exact ⟨by decide, h2, h1⟩
  · dsimp only
    exact ⟨by decide, h4, h3⟩
  · dsimp only
    exact ⟨by decide, h6, h5⟩
  · dsimp only
    exact ⟨by decide, by decide, by decide⟩
  · dsimp only
    exact ⟨by decide, by decide, by decide⟩

/-- A concrete flow with scopes a and b for the C3 witness. -/
def exFlowAB : Flow :=
  { client_id := "client123"
    client_secret := "cs"
    auth_uri := "https://accounts.google.com/o/oauth2/auth"
    token_uri := "https://oauth2.googleapis.com/token"
    scopes := ["a", "b"]
    redirect_uri := "http://localhost:8080" }

/-- Claim C3 witness: for scopes a and b the parsed query carries
scope "a b" (encoded a+b in the URL) and access_type=offline. -/
theorem c3_authorization_url_params_witness :
    ∃ q : String, authorization_url exFlowAB = exFlowAB.auth_uri ++ "?" ++ q ∧
      parse_qs q =
        [("response_type", "code"),
         ("client_id", "client123"),
         ("redirect_uri", "http://localhost:8080"),
         ("scope", "a b"),
         ("access_type", "offline"),
         ("include_granted_scopes", "true")] :=
  c3_authorization_url_params exFlowAB (by decide) (by decide) (by decide)
    (by decide) (by decide) (by decide)

/-- Claim C4: whenever the parsed query of the pasted URL has a first
pair with key code, extraction returns exactly that pair value. -/
theorem c4_code_extraction (url : String) (p : String × String)
    (h : (parse_qs (urlparse_query url)).find? (fun q => q.1 == "code") = some p) :
    extract_code url = some p.2 := by
  rw [extract_code_eq_head]
  unfold parse_qs_lookup
  rw [head_filterMap_key, h]
  rfl

/-- Claim C4 witness: the spec example input yields ABC123. -/
theorem c4_code_extraction_witness :
    extract_code "http://localhost:8080/?code=ABC123&scope=x" = some "ABC123" :=
  c4_code_extraction "http://localhost:8080/?code=ABC123&scope=x"
    ("code", "ABC123") (by decide)

/-- Claim C5: when the query of the pasted redirect string has no code
parameter, the step fails with MalformedInput and the exchange is never
attempted. -/
theorem c5_no_code_param (flow : Flow) (url : String) (r : ProviderResult)
    (h : ∀ p ∈ parse_qs (urlparse_query url), p.1 ≠ "code") :
    run_token_step flow url r = ⟨.failure .malformedInput, none⟩ := by
  have hl : parse_qs_lookup (urlparse_query url) "code" = [] := by
    unfold parse_qs_lookup
    rw [List.filterMap_eq_nil_iff]
    intro p hp
    simp [h p hp]
  have he : extract_code url = none := by
    rw [extract_code_eq_head, hl]
    rfl
  unfold run_token_step
  rw [he]

/-- Claim C5 witness: a redirect URL whose query lacks code fails with
MalformedInput and no exchange attempt. -/
theorem c5_no_code_param_witness :
    run_token_step exFlow "http://localhost:8080/?error=access_denied"
        ProviderResult.networkFailure =
      ⟨.failure .malformedInput, none⟩ :=
  c5_no_code_param exFlow "http://localhost:8080/?error=access_denied"
    ProviderResult.networkFailure (by decide)

/-- Claim C6 counterexample: a bare authorization code string is not
accepted; pasted alone it hits the MalformedInput branch and no exchange
is attempted with it. -/
theorem c6_counterexample :
    run_token_step exFlow "ABC123" (ProviderResult.success exResp) =
      ⟨.failure .malformedInput, none⟩ := by
  rfl

/-- Claim C6 (amended): the redirect-capture input accepts only the full
redirect-URL form; any bare code string (no query separator) is rejected
with MalformedInput and no exchange attempt, while a full redirect URL
with a code parameter proceeds to the exchange with the extracted code. -/
theorem c6_redirect_forms (flow : Flow) (r : ProviderResult) (s : String)
    (h1 : '?' ∉ s.data) (h2 : '#' ∉ s.data) :
    run_token_step flow s r = ⟨.failure .malformedInput, none⟩ ∧
      (run_token_step flow "http://localhost:8080/?code=ABC123&scope=x" r).attempted_code =
        some "ABC123" := by
  constructor
  · have e1 := splitFirst_eq_none '#' s.data h2
    have e2 := splitFirst_eq_none '?' s.data h1
    have hq : urlparse_query s = "" := by
      simp only [urlparse_query, urlQueryChars, e1, e2]
    have he : extract_code s = none := by
      rw [extract_code_eq_head]
      unfold parse_qs_lookup
      rw [hq]
      rfl
    unfold run_token_step
    rw [he]
  · cases r <;> rfl

/-- Claim C6 witness: a realistic bare Google code is rejected while the
URL form proceeds with code ABC123. -/
theorem c6_redirect_forms_witness :
    run_token_step exFlow "4/0AbCdEfGh" ProviderResult.networkFailure =
        ⟨.failure .malformedInput, none⟩ ∧
      (run_token_step exFlow "http://localhost:8080/?code=ABC123&scope=x"
          ProviderResult.networkFailure).attempted_code =
        some "ABC123" :=
  c6_redirect_forms exFlow ProviderResult.networkFailure "4/0AbCdEfGh"
    (by decide) (by decide)

/-- Claim C7: the exchange is all-or-nothing; a token.json payload exists
after the step exactly when code extraction succeeded and the provider
returned success, so no failing run returns any token data. -/
theorem c7_all_or_nothing (flow : Flow) (url : String) (r : ProviderResult) :
    (∃ td, (run_token_step flow url r).outcome = StepOutcome.token td) ↔
      ((extract_code url).isSome ∧ ∃ resp, r = ProviderResult.success resp) := by
  unfold run_token_step
  rcases e : extract_code url with _ | c
  · simp [e]
  · cases r <;> simp [e, exchangeCodeForToken]

/-- Claim C8 counterexample: after an exchange failed with HTTP 400
invalid_grant, the retained session flow lets a second Generate Token
press run a full exchange again, without any fresh authorization URL. -/
theorem c8_counterexample :
    (gen_token_event ⟨some "authurl", some exFlow⟩ "http://localhost:8080/?code=BAD"
        (ProviderResult.httpError 400 "invalid_grant")).2 =
      some ⟨.failure (.exchange .authorizationDenied), some "BAD"⟩ ∧
      (gen_token_event
          (gen_token_event ⟨some "authurl", some exFlow⟩ "http://localhost:8080/?code=BAD"
            (ProviderResult.httpError 400 "invalid_grant")).1
          "http://localhost:8080/?code=GOOD" (ProviderResult.success exResp)).2 =
        some ⟨.token (mk_token_data (fetch_token_success exFlow exResp)), some "GOOD"⟩ := by
  constructor <;> rfl

/-- Claim C8 (amended): a Generate Token press performs exactly one
exchange attempt and never writes session state, so after a failure the
old flow and authorization URL are retained and a further exchange can
proceed with the same flow, with no automatic retry in between. -/
theorem c8_failure_keeps_flow (s : AppState) (f : Flow) (url url2 : String)
    (r r2 : ProviderResult) (h : s.flow = some f) :
    gen_token_event s url r = (s, some (run_token_step f url r)) ∧
      (gen_token_event (gen_token_event s url r).1 url2 r2).2 =
        some (run_token_step f url2 r2) := by
  simp [gen_token_event, h]

/-- A session state right after generating an authorization URL. -/
def exState : AppState :=
  gen_auth_event ⟨none, none⟩ exFlow

/-- Claim C8 witness: concrete double token attempt on a retained flow. -/
theorem c8_failure_keeps_flow_witness :
    gen_token_event exState "u1" ProviderResult.networkFailure =
        (exState, some (run_token_step exFlow "u1" ProviderResult.networkFailure)) ∧
      (gen_token_event (gen_token_event exState "u1" ProviderResult.networkFailure).1
          "u2" ProviderResult.networkFailure).2 =
        some (run_token_step exFlow "u2" ProviderResult.networkFailure) :=
  c8_failure_keeps_flow exState exFlow "u1" "u2"
    ProviderResult.networkFailure ProviderResult.networkFailure rfl

/-- Claim C9: uploading a well-formed JSON descriptor that has only a web
key creates the temporary credential copy but never records its path, so
the end-of-run cleanup misses it and the file remains on disk. -/
theorem c9_temp_file_leak :
    leftover_temp_files (Uploaded.parsed ⟨none, some exWebConfig⟩) "/tmp/tmpupload.json" =
      ["/tmp/tmpupload.json"] := by
  rfl

/-- Claim C10: the redirect URI is the constant http://localhost:8080 in
the flow, in the authorization request parameters and in the token
request, independent of the redirect_uris listed in the descriptor. -/
theorem c10_redirect_uri_fixed (cfg : AppConfig) (code : String) :
    (app_flow cfg).redirect_uri = "http://localhost:8080" ∧
      ("redirect_uri", "http://localhost:8080") ∈ authParams (app_flow cfg) ∧
      ("redirect_uri", "http://localhost:8080") ∈ token_request_params (app_flow cfg) code ∧
      ∀ uris : List String, app_flow { cfg with redirect_uris := uris } = app_flow cfg := by
  refine ⟨rfl, ?_, ?_, fun uris => rfl⟩
  · exact List.mem_cons_of_mem _ (List.mem_cons_of_mem _ (List.mem_cons_self _ _))
  · exact List.mem_cons_of_mem _ (List.mem_cons_of_mem _ (List.mem_cons_of_mem _
      (List.mem_cons_of_mem _ (List.mem_cons_self _ _))))

end TokenGen
